import Mathlib

/-!
# `vector2` (src/math/vector2.h)

A shallow embedding of the 2-D vector value type of the kinematics math library.

Scalars: the operations are written over a type `α` of scalars that has the
arithmetic they use, so that each of them is one definition with two readings:
* the machine: `α := binary32`, the C++ `float` with IEEE 754 rounding, overflow and
  underflow (section "The machine scalars");
* exact arithmetic: `α` an arbitrary linearly ordered field, for the statements made
  "in exact arithmetic".  The literal `0.0f` is `0`.

`mathf.h` is not part of the sources at hand, so the square root that `length` takes
from it is a parameter `sqrt : α → α` of that operation.

A member function that mutates `*this` returns the new state of the vector.
`normalize()` (lines 53-66) and `isValid()` (lines 68-71) have no embedding: in the
initialiser of `float length = length();` the name `length` is the local being
declared, and in `isValid(x) && isValid(y)` the name `isValid` is the member without
parameters, so neither body is a well-formed call and neither function has a behaviour
to translate.
-/

/-- The struct `vector2`, `float x, y;`. -/
structure vector2 (α : Type) where
  x : α
  y : α

/-- The assumption made on the parameter `sqrt` where a property depends on it:
on a non-negative scalar the result is non-negative and its square is the argument.
The real square root satisfies it (`isSqrt_real`). -/
def IsSqrt {α : Type} [LinearOrderedField α] (sqrt : α → α) : Prop :=
  ∀ a : α, 0 ≤ a → 0 ≤ sqrt a ∧ sqrt a * sqrt a = a

namespace vector2

variable {α : Type}

/-- The member `void setZero() { x = 0.0f; y = 0.0f; }`. -/
def setZero [OfNat α 0] (self : vector2 α) : vector2 α :=
  { self with x := 0, y := 0 }

/-- The member `void set(float x_, float y_) { x = x_; y = y_; }`. -/
def set (self : vector2 α) (x_ y_ : α) : vector2 α :=
  { self with x := x_, y := y_ }

/-- The member `vector2 operator -() const { vector2 v; v.set(-x, -y); return v; }`.
The local `v` is default-constructed, which leaves its fields unset: `v` is
a parameter standing for those indeterminate contents. -/
def neg [Neg α] (v : vector2 α) (self : vector2 α) : vector2 α :=
  v.set (-self.x) (-self.y)

/-- The member `float length() const { return sqrt(x * x + y * y); }`. -/
def length [Mul α] [Add α] (sqrt : α → α) (self : vector2 α) : α :=
  sqrt (self.x * self.x + self.y * self.y)

/-- The member `float lengthSquared() const { return x * x + y * y; }`. -/
def lengthSquared [Mul α] [Add α] (self : vector2 α) : α :=
  self.x * self.x + self.y * self.y

/-- The member `vector2 skew() const { return vector2(-y, x); }`. -/
def skew [Neg α] (self : vector2 α) : vector2 α :=
  { x := -self.y, y := self.x }

/-- The member `void operator +=(const vector2& v) { x += v.x; y += v.y; }`;
`v` is another object, read only. -/
def addAssign [Add α] (self : vector2 α) (v : vector2 α) : vector2 α :=
  { self with x := self.x + v.x, y := self.y + v.y }

/-- The member `void operator -=(const vector2& v) { x -= v.x; y -= v.y; }`;
`v` is another object, read only. -/
def subAssign [Sub α] (self : vector2 α) (v : vector2 α) : vector2 α :=
  { self with x := self.x - v.x, y := self.y - v.y }

/-- The member `void operator *=(float a) { x *= a; y *= a; }`. -/
def mulAssign [Mul α] (self : vector2 α) (a : α) : vector2 α :=
  { self with x := self.x * a, y := self.y * a }

end vector2

/-! ## Operations that do no arithmetic

They are stated for an arbitrary type `β` of scalars. -/

namespace vector2

variable {β : Type}

/-- The constructor `vector2() {}`: the body is empty and there are no member
initialisers, so `x` and `y` keep whatever the object's storage holds; `unset`
stands for those contents. -/
def construct (unset : vector2 β) : vector2 β :=
  unset

/-- The floats of the object in the order of the declaration `float x, y;`: the
storage that `&x` points into, `x` at place `0`. -/
def cells (self : vector2 β) : List β :=
  [self.x, self.y]

/-- The vector whose storage is the given floats. -/
def ofCells : List β → Option (vector2 β)
  | [x, y] => some { x := x, y := y }
  | _ => none

/-- The member `float operator () (int32 i) const { return (&x)[i]; }`: the float
`i` places after `x` in the object; `none` when that place is outside the object. -/
def component (self : vector2 β) (i : Int) : Option β :=
  if 0 ≤ i then self.cells[i.toNat]? else none

/-- The member `float& operator () (int32 i) { return (&x)[i]; }` with the value `a`
assigned through the returned reference, `v(i) = a`: the vector after the
assignment; `none` when the place is outside the object. -/
def setComponent (self : vector2 β) (i : Int) (a : β) : Option (vector2 β) :=
  if 0 ≤ i ∧ i.toNat < self.cells.length then ofCells (self.cells.set i.toNat a) else none

end vector2

/-! ## Calls through references

`operator +=` and `operator -=` take their argument as `const vector2&`, which may
refer to the vector the operator is called on.  A store `m : Nat → vector2 α` holds
the vectors by place; a call names the place of `*this` and the place of the argument. -/

namespace vector2

variable {α : Type}

/-- The call `a += b` of `void operator +=(const vector2& v) { x += v.x; y += v.y; }`
for the vectors at the places `self` and `v` of the store, the same place when a vector
is its own argument: the two assignments in order, each reading through `v`. -/
def addAssignAt [Add α] (m : Nat → vector2 α) (self v : Nat) : Nat → vector2 α :=
  let m1 := Function.update m self { m self with x := (m self).x + (m v).x }
  Function.update m1 self { m1 self with y := (m1 self).y + (m1 v).y }

/-- The call `a -= b` of `void operator -=(const vector2& v) { x -= v.x; y -= v.y; }`
for the vectors at the places `self` and `v` of the store, in the same way. -/
def subAssignAt [Sub α] (m : Nat → vector2 α) (self v : Nat) : Nat → vector2 α :=
  let m1 := Function.update m self { m self with x := (m self).x - (m v).x }
  Function.update m1 self { m1 self with y := (m1 self).y - (m1 v).y }

end vector2

/-! ## The machine scalars

The C++ type `float` as IEEE 754 binary32 with the default rounding (to nearest, ties
to even), every operation rounded to binary32.  A finite value is `± m * 2 ^ e`; the
operations return it in canonical form: `m < 2 ^ 24`, `-149 ≤ e ≤ 104`, and
`2 ^ 23 ≤ m` unless `e = -149` (subnormal numbers and the zeros). -/

/-- The values of a `float`: a finite number `± m * 2 ^ e`, an infinity, or NaN. -/
inductive binary32 where
  | finite (negative : Bool) (m : Nat) (e : Int)
  | infinite (negative : Bool)
  | nan
deriving DecidableEq

namespace binary32

/-- The number of binary digits of `n`, with fuel `fuel`. -/
def bitsFrom : Nat → Nat → Nat
  | 0, _ => 0
  | fuel + 1, n => if n = 0 then 0 else bitsFrom fuel (n / 2) + 1

/-- The number of binary digits of `n`. -/
def bits (n : Nat) : Nat :=
  bitsFrom n n

/-- The float `± q * 2 ^ e` for a significand `q ≤ 2 ^ 24` that rounding produced:
a carry into the 25th digit moves to the next exponent, and a value beyond the largest
finite float is an infinity. -/
def pack (negative : Bool) (q : Nat) (e : Int) : binary32 :=
  let q1 := if q = 2 ^ 24 then 2 ^ 23 else q
  let e1 := if q = 2 ^ 24 then e + 1 else e
  if 104 < e1 then infinite negative else finite negative q1 e1

/-- The float nearest to the exact value `± m * 2 ^ e`, ties to the even significand:
24 significant digits are kept, fewer below `2 ^ -126` where the last place is
`2 ^ -149`. -/
def round (negative : Bool) (m : Nat) (e : Int) : binary32 :=
  if m = 0 then finite negative 0 (-149)
  else
    let n : Int := (bits m : Int)
    let e1 : Int := max (e + n - 24) (-149)
    if e1 ≤ e then pack negative (m * 2 ^ (e - e1).toNat) e1
    else
      let k := (e1 - e).toNat
      let q := m / 2 ^ k
      let r := m % 2 ^ k
      let half := 2 ^ (k - 1)
      pack negative (if half < r ∨ (r = half ∧ q % 2 = 1) then q + 1 else q) e1

/-- The product of two floats, `a * b` in the source. -/
def mul : binary32 → binary32 → binary32
  | nan, _ => nan
  | _, nan => nan
  | infinite s, infinite t => infinite (xor s t)
  | infinite s, finite t n _ => if n = 0 then nan else infinite (xor s t)
  | finite s m _, infinite t => if m = 0 then nan else infinite (xor s t)
  | finite s m e, finite t n f => round (xor s t) (m * n) (e + f)

/-- The integer `± m`. -/
def signed (negative : Bool) (m : Nat) : Int :=
  if negative then -(m : Int) else (m : Int)

/-- The sum of two floats, `a + b` in the source. -/
def add : binary32 → binary32 → binary32
  | nan, _ => nan
  | _, nan => nan
  | infinite s, infinite t => if s = t then infinite s else nan
  | infinite s, finite _ _ _ => infinite s
  | finite _ _ _, infinite t => infinite t
  | finite s m e, finite t n f =>
    let g := min e f
    let c := signed s (m * 2 ^ (e - g).toNat) + signed t (n * 2 ^ (f - g).toNat)
    if c = 0 then finite (s && t) 0 (-149) else round (decide (c < 0)) c.natAbs g

/-- Newton's iteration for the integer square root of `n`, downwards from a guess
`g` above the root, with fuel. -/
def isqrtFrom (n : Nat) : Nat → Nat → Nat
  | 0, g => g
  | fuel + 1, g =>
    let h := (g + n / g) / 2
    if h < g then isqrtFrom n fuel h else g

/-- The integer square root of `n`. -/
def isqrt (n : Nat) : Nat :=
  if n = 0 then 0 else isqrtFrom n 64 (2 ^ (bits n / 2 + 1))

/-- Modelled from the spec: the square-root function over 32-bit floats that the
scalar math library supplies (`sqrt` is not declared in the sources at hand), correctly
rounded as IEEE 754 requires: the integer square root of the significand scaled to an
even exponent and at least 53 digits, with a last digit that records an inexact root. -/
def sqrt : binary32 → binary32
  | nan => nan
  | infinite s => if s then nan else infinite false
  | finite s m e =>
    if m = 0 then finite s 0 (-149)
    else if s then nan
    else
      let t : Nat := if (e - 52) % 2 = 0 then 52 else 53
      let r := isqrt (m * 2 ^ t)
      round false (2 * r + (if r * r = m * 2 ^ t then 0 else 1)) ((e - t) / 2 - 1)

/-- The absolute value of a float, the `|a|` of a statement about floats. -/
def abs : binary32 → binary32
  | finite _ m e => finite false m e
  | infinite _ => infinite false
  | nan => nan

/-- The comparison `a == b` of two floats: the two zeros are equal, NaN is equal
to nothing. -/
def eq : binary32 → binary32 → Bool
  | finite s m e, finite t n f =>
    (decide (m = 0) && decide (n = 0)) || (decide (s = t) && decide (m = n) && decide (e = f))
  | infinite s, infinite t => decide (s = t)
  | _, _ => false

instance instMul : Mul binary32 :=
  ⟨mul⟩

instance instAdd : Add binary32 :=
  ⟨add⟩

/-- A literal such as `3.0f`: the float nearest to the natural number `n`. -/
instance instOfNat (n : Nat) : OfNat binary32 n :=
  ⟨round false n 0⟩

end binary32

/-! ## Auxiliary facts -/

section aux

variable {α : Type} [LinearOrderedField α]

theorem IsSqrt.nonneg {sqrt : α → α} (hs : IsSqrt sqrt) {a : α} (ha : 0 ≤ a) :
    0 ≤ sqrt a :=
  (hs a ha).1

theorem IsSqrt.mul_self {sqrt : α → α} (hs : IsSqrt sqrt) {a : α} (ha : 0 ≤ a) :
    sqrt a * sqrt a = a :=
  (hs a ha).2

/-- A square root is determined by its contract: a non-negative `b` whose
square is `a` is `sqrt a`. -/
theorem IsSqrt.eq_of_mul_self {sqrt : α → α} (hs : IsSqrt sqrt) {a b : α}
    (hb : 0 ≤ b) (hab : b * b = a) : sqrt a = b := by
  have ha : 0 ≤ a := hab ▸ mul_self_nonneg b
  have h1 := hs.mul_self ha
  have h2 := hs.nonneg ha
  exact (mul_self_inj h2 hb).1 (h1.trans hab.symm)

/-- The real square root satisfies the contract. -/
theorem isSqrt_real : IsSqrt Real.sqrt :=
  fun a ha => ⟨Real.sqrt_nonneg a, Real.mul_self_sqrt ha⟩

theorem vector2.sum_sq_nonneg (v : vector2 α) : 0 ≤ v.x * v.x + v.y * v.y :=
  add_nonneg (mul_self_nonneg _) (mul_self_nonneg _)

/-- The sum of the squares of the components is zero only for the zero components. -/
theorem vector2.sum_sq_eq_zero_iff (v : vector2 α) :
    v.x * v.x + v.y * v.y = 0 ↔ v.x = 0 ∧ v.y = 0 :=
  mul_self_add_mul_self_eq_zero

/-- A square root vanishes only at zero, on the non-negative scalars. -/
theorem IsSqrt.eq_zero_iff {sqrt : α → α} (hs : IsSqrt sqrt) {a : α} (ha : 0 ≤ a) :
    sqrt a = 0 ↔ a = 0 := by
  constructor
  · intro h
    have h2 := hs.mul_self ha
    rw [h, mul_zero] at h2
    exact h2.symm
  · intro h
    exact hs.eq_of_mul_self le_rfl (by rw [h, mul_zero])

/-- A call `a += b` on the store changes the vector at `p` to the componentwise sum
with the vector at `q` as it was before the call, also when `q` is `p`. -/
theorem vector2.addAssignAt_eq {γ : Type} [Add γ] (m : Nat → vector2 γ) (p q : Nat) :
    vector2.addAssignAt m p q = Function.update m p ((m p).addAssign (m q)) := by
  funext i
  by_cases hi : i = p
  · subst hi
    by_cases hq : q = i
    · subst hq
      simp [vector2.addAssignAt, vector2.addAssign]
    · simp [vector2.addAssignAt, vector2.addAssign, Function.update_noteq hq]
  · simp [vector2.addAssignAt, Function.update_noteq hi]

/-- A call `a -= b` on the store changes the vector at `p` to the componentwise
difference with the vector at `q` as it was before the call, also when `q` is `p`. -/
theorem vector2.subAssignAt_eq {γ : Type} [Sub γ] (m : Nat → vector2 γ) (p q : Nat) :
    vector2.subAssignAt m p q = Function.update m p ((m p).subAssign (m q)) := by
  funext i
  by_cases hi : i = p
  · subst hi
    by_cases hq : q = i
    · subst hq
      simp [vector2.subAssignAt, vector2.subAssign]
    · simp [vector2.subAssignAt, vector2.subAssign, Function.update_noteq hq]
  · simp [vector2.subAssignAt, Function.update_noteq hi]

end aux

section claims

set_option maxRecDepth 100000

variable {α : Type} [LinearOrderedField α]

/-- C4: for every vector `(x, y)`, `length()` returns `sqrt (x * x + y * y)`, which is
non-negative; for `(3, 4)` it returns `5` and `lengthSquared()` returns `25`. -/
theorem length_eq_sqrt_and_nonneg (sqrt : α → α) (hs : IsSqrt sqrt) (v : vector2 α) :
    v.length sqrt = sqrt (v.x * v.x + v.y * v.y) ∧ 0 ≤ v.length sqrt ∧
      (⟨3, 4⟩ : vector2 α).length sqrt = 5 ∧ (⟨3, 4⟩ : vector2 α).lengthSquared = 25 := by
  refine ⟨rfl, hs.nonneg v.sum_sq_nonneg, ?_, ?_⟩
  · show sqrt ((3 : α) * 3 + 4 * 4) = 5
    apply hs.eq_of_mul_self <;> norm_num
  · show (3 : α) * 3 + 4 * 4 = 25
    norm_num

/-- Witness of C4 at `v = (-6, 8)` over the reals. -/
theorem length_eq_sqrt_and_nonneg_witness :
    (⟨-6, 8⟩ : vector2 ℝ).length Real.sqrt = Real.sqrt ((-6) * (-6) + 8 * 8) ∧
      0 ≤ (⟨-6, 8⟩ : vector2 ℝ).length Real.sqrt ∧
      (⟨3, 4⟩ : vector2 ℝ).length Real.sqrt = 5 ∧
      (⟨3, 4⟩ : vector2 ℝ).lengthSquared = 25 :=
  length_eq_sqrt_and_nonneg Real.sqrt isSqrt_real ⟨-6, 8⟩

/-- C5: for every vector, the square of `length()` equals `lengthSquared()`. -/
theorem length_mul_self_eq_lengthSquared (sqrt : α → α) (hs : IsSqrt sqrt)
    (v : vector2 α) :
    v.length sqrt * v.length sqrt = v.lengthSquared :=
  hs.mul_self v.sum_sq_nonneg

/-- Witness of C5 at `v = (1, 1)` over the reals, whose length is irrational. -/
theorem length_mul_self_eq_lengthSquared_witness :
    (⟨1, 1⟩ : vector2 ℝ).length Real.sqrt * (⟨1, 1⟩ : vector2 ℝ).length Real.sqrt =
      (⟨1, 1⟩ : vector2 ℝ).lengthSquared :=
  length_mul_self_eq_lengthSquared Real.sqrt isSqrt_real ⟨1, 1⟩

/-- C6: unary minus returns `(-x, -y)`, and negating twice gives back a vector with
the same `x` and `y`. -/
theorem neg_neg_eq_self (u w v : vector2 α) :
    (vector2.neg u v).x = -v.x ∧ (vector2.neg u v).y = -v.y ∧
      (vector2.neg w (vector2.neg u v)).x = v.x ∧
      (vector2.neg w (vector2.neg u v)).y = v.y := by
  simp [vector2.neg, vector2.set]

/-- C7: `skew()` returns `(-y, x)`, applying it twice equals negation componentwise,
and `(3, 4).skew()` is `(-4, 3)`. -/
theorem skew_skew_eq_neg (u v : vector2 α) :
    (v.skew.x = -v.y ∧ v.skew.y = v.x) ∧
      (v.skew.skew.x = (vector2.neg u v).x ∧ v.skew.skew.y = (vector2.neg u v).y) ∧
      ((⟨3, 4⟩ : vector2 α).skew.x = -4 ∧ (⟨3, 4⟩ : vector2 α).skew.y = 3) := by
  simp [vector2.skew, vector2.neg, vector2.set]

/-- C8: `skew()` preserves `length()` and `lengthSquared()`. -/
theorem skew_preserves_length (sqrt : α → α) (v : vector2 α) :
    v.skew.length sqrt = v.length sqrt ∧ v.skew.lengthSquared = v.lengthSquared := by
  have h : -v.y * -v.y + v.x * v.x = v.x * v.x + v.y * v.y := by ring
  exact ⟨congrArg sqrt h, h⟩

/-- C9: the dot product of a vector `(x, y)` with its `skew()` is zero. -/
theorem skew_perpendicular (v : vector2 α) :
    v.x * v.skew.x + v.y * v.skew.y = 0 := by
  show v.x * -v.y + v.y * v.x = 0
  ring

/-- C11: for `i` in `{0, 1}` the read form `v(i)` is defined and returns `x` when
`i = 0` and `y` when `i = 1`; writing `a` through the reference form `v(i)` succeeds,
a subsequent read of `v(i)` returns `a`, and the other component `v(1 - i)` is
unchanged. -/
theorem component_read_write {β : Type} (v : vector2 β) (i : Int) (a : β)
    (hi : i = 0 ∨ i = 1) :
    (v.component 0 = some v.x ∧ v.component 1 = some v.y) ∧
      (∃ b : β, v.component i = some b) ∧
      ∃ w : vector2 β, v.setComponent i a = some w ∧
        w.component i = some a ∧ w.component (1 - i) = v.component (1 - i) := by
  refine ⟨⟨rfl, rfl⟩, ?_, ?_⟩
  · rcases hi with rfl | rfl
    · exact ⟨v.x, rfl⟩
    · exact ⟨v.y, rfl⟩
  · rcases hi with rfl | rfl
    · exact ⟨{ x := a, y := v.y }, rfl, rfl, rfl⟩
    · exact ⟨{ x := v.x, y := a }, rfl, rfl, rfl⟩

/-- Witness of C11: writing `7` at index `1` of `(3, 4)` over the rationals. -/
theorem component_read_write_witness :
    (((⟨3, 4⟩ : vector2 ℚ).component 0 = some 3 ∧
        (⟨3, 4⟩ : vector2 ℚ).component 1 = some 4) ∧
      (∃ b : ℚ, (⟨3, 4⟩ : vector2 ℚ).component 1 = some b) ∧
      ∃ w : vector2 ℚ, (⟨3, 4⟩ : vector2 ℚ).setComponent 1 7 = some w ∧
        w.component 1 = some 7 ∧
        w.component (1 - 1) = (⟨3, 4⟩ : vector2 ℚ).component (1 - 1)) :=
  component_read_write ⟨3, 4⟩ 1 7 (Or.inr rfl)

/-- C13: the in-place operators are componentwise: `v += w` gives
`(v.x + w.x, v.y + w.y)`, `v -= w` gives `(v.x - w.x, v.y - w.y)` and `v *= a` gives
`(a * v.x, a * v.y)`; `(1, 0) += (0, 1)` is `(1, 1)`, and then `*= 2` gives `(2, 2)`. -/
theorem assign_operators_componentwise (v w : vector2 α) (a : α) :
    ((v.addAssign w).x = v.x + w.x ∧ (v.addAssign w).y = v.y + w.y) ∧
      ((v.subAssign w).x = v.x - w.x ∧ (v.subAssign w).y = v.y - w.y) ∧
      ((v.mulAssign a).x = a * v.x ∧ (v.mulAssign a).y = a * v.y) ∧
      (⟨1, 0⟩ : vector2 α).addAssign ⟨0, 1⟩ = ⟨1, 1⟩ ∧
      ((⟨1, 0⟩ : vector2 α).addAssign ⟨0, 1⟩).mulAssign 2 = ⟨2, 2⟩ := by
  refine ⟨⟨rfl, rfl⟩, ⟨rfl, rfl⟩, ⟨mul_comm _ _, mul_comm _ _⟩, ?_, ?_⟩
  · simp [vector2.addAssign]
  · simp [vector2.addAssign, vector2.mulAssign]

/-- C14, as stated: a default-constructed vector has `x = 0` and `y = 0`.  It fails:
the constructor leaves the fields as the storage had them, here `(1, 2)`. -/
theorem construct_not_zero :
    ¬ ((vector2.construct (⟨1, 2⟩ : vector2 ℚ)).x = 0 ∧
        (vector2.construct (⟨1, 2⟩ : vector2 ℚ)).y = 0) := by
  simp [vector2.construct]

/-- C14, amended: default construction leaves `x` and `y` as the storage had them, and
`setZero()` makes `x = 0` and `y = 0` whatever the vector held, in particular on
a default-constructed vector. -/
theorem construct_unset_setZero_zero (unset : vector2 α) :
    vector2.construct unset = unset ∧
      (vector2.construct unset).setZero = ⟨0, 0⟩ ∧
      unset.setZero.x = 0 ∧ unset.setZero.y = 0 :=
  ⟨rfl, rfl, rfl, rfl⟩

/-- C16, as stated: after `v *= a` the `length()` equals `|a|` times the earlier
`length()` and `lengthSquared()` equals `a * a` times the earlier `lengthSquared()`.
It fails on floats.  For `v = (1, 2)`, `a = 3` the length afterwards is
`14068123 * 2 ^ -21` and `|a|` times the length before is `14068124 * 2 ^ -21`.  For
`v = (2 ^ 70, 0)`, `a = 2 ^ -70` the `lengthSquared()` afterwards is `1` and `a * a`
times the earlier one is infinite, the earlier one having overflowed. -/
theorem mulAssign_length_binary32_differs :
    (((⟨1, 2⟩ : vector2 binary32).mulAssign 3).length binary32.sqrt =
        binary32.finite false 14068123 (-21) ∧
      binary32.abs 3 * (⟨1, 2⟩ : vector2 binary32).length binary32.sqrt =
        binary32.finite false 14068124 (-21)) ∧
      ¬ (binary32.eq (((⟨1, 2⟩ : vector2 binary32).mulAssign 3).length binary32.sqrt)
            (binary32.abs 3 * (⟨1, 2⟩ : vector2 binary32).length binary32.sqrt) = true ∧
          binary32.eq ((⟨1, 2⟩ : vector2 binary32).mulAssign 3).lengthSquared
            (3 * 3 * (⟨1, 2⟩ : vector2 binary32).lengthSquared) = true) ∧
      binary32.eq
        ((⟨binary32.finite false 8388608 47, 0⟩ : vector2 binary32).mulAssign
          (binary32.finite false 8388608 (-93))).lengthSquared
        (binary32.finite false 8388608 (-93) * binary32.finite false 8388608 (-93) *
          (⟨binary32.finite false 8388608 47, 0⟩ : vector2 binary32).lengthSquared) =
        false := by
  decide

/-- C16, amended: in exact arithmetic, after `v *= a` the vector's `length()` is `|a|`
times its `length()` before the call, and its `lengthSquared()` is `a * a` times the
earlier `lengthSquared()`. -/
theorem mulAssign_scales_length (sqrt : α → α) (hs : IsSqrt sqrt) (v : vector2 α)
    (a : α) :
    (v.mulAssign a).length sqrt = |a| * v.length sqrt ∧
      (v.mulAssign a).lengthSquared = a * a * v.lengthSquared := by
  have hsq : v.length sqrt * v.length sqrt = v.x * v.x + v.y * v.y :=
    hs.mul_self v.sum_sq_nonneg
  have hlen : 0 ≤ v.length sqrt := hs.nonneg v.sum_sq_nonneg
  constructor
  · show sqrt (v.x * a * (v.x * a) + v.y * a * (v.y * a)) = |a| * v.length sqrt
    apply hs.eq_of_mul_self (mul_nonneg (abs_nonneg a) hlen)
    calc |a| * v.length sqrt * (|a| * v.length sqrt)
        = (|a| * |a|) * (v.length sqrt * v.length sqrt) := by ring
      _ = (a * a) * (v.x * v.x + v.y * v.y) := by rw [abs_mul_abs_self, hsq]
      _ = v.x * a * (v.x * a) + v.y * a * (v.y * a) := by ring
  · show v.x * a * (v.x * a) + v.y * a * (v.y * a) = a * a * (v.x * v.x + v.y * v.y)
    ring

/-- Witness of C16 at `v = (3, 4)`, `a = -2` over the reals. -/
theorem mulAssign_scales_length_witness :
    (((⟨3, 4⟩ : vector2 ℝ).mulAssign (-2)).length Real.sqrt =
        |(-2 : ℝ)| * (⟨3, 4⟩ : vector2 ℝ).length Real.sqrt ∧
      ((⟨3, 4⟩ : vector2 ℝ).mulAssign (-2)).lengthSquared =
        (-2) * (-2) * (⟨3, 4⟩ : vector2 ℝ).lengthSquared) :=
  mulAssign_scales_length Real.sqrt isSqrt_real ⟨3, 4⟩ (-2)

/-- C17, as stated, for every `v` and `w`: `v += w` followed by `v -= w` restores `v`
and neither call modifies `w`.  It fails when `w` is `v` itself: for the vector
`(1, 1)`, the only one in the store, `v += v` leaves `(2, 2)` and `v -= v` then
leaves `(0, 0)`. -/
theorem subAssignAt_addAssignAt_same_vector :
    vector2.addAssignAt (fun _ => (⟨1, 1⟩ : vector2 ℚ)) 0 0 0 = ⟨2, 2⟩ ∧
      vector2.subAssignAt (vector2.addAssignAt (fun _ => (⟨1, 1⟩ : vector2 ℚ)) 0 0) 0 0 0 =
        ⟨0, 0⟩ ∧
      ¬ (vector2.subAssignAt (vector2.addAssignAt (fun _ => (⟨1, 1⟩ : vector2 ℚ)) 0 0) 0 0 0 =
            ⟨1, 1⟩ ∧
          vector2.addAssignAt (fun _ => (⟨1, 1⟩ : vector2 ℚ)) 0 0 0 = ⟨1, 1⟩) := by
  have h1 : vector2.addAssignAt (fun _ => (⟨1, 1⟩ : vector2 ℚ)) 0 0 0 = ⟨2, 2⟩ := by
    rw [vector2.addAssignAt_eq]
    norm_num [vector2.addAssign]
  have h2 : vector2.subAssignAt (vector2.addAssignAt (fun _ => (⟨1, 1⟩ : vector2 ℚ)) 0 0)
      0 0 0 = ⟨0, 0⟩ := by
    rw [vector2.subAssignAt_eq, h1]
    norm_num [vector2.subAssign]
  refine ⟨h1, h2, fun h => ?_⟩
  have hx := congrArg vector2.x (h1.symm.trans h.2)
  norm_num at hx

/-- C17, amended: for every vector `v` and every vector `w` that is another object
than `v`, in exact arithmetic, `v += w` followed by `v -= w` restores `v` to its
original components, and `w` is not modified by either call. -/
theorem subAssignAt_undoes_addAssignAt (m : Nat → vector2 α) (p q : Nat) (h : p ≠ q) :
    vector2.subAssignAt (vector2.addAssignAt m p q) p q p = m p ∧
      vector2.addAssignAt m p q q = m q ∧
      vector2.subAssignAt (vector2.addAssignAt m p q) p q q = m q := by
  have hq : vector2.addAssignAt m p q q = m q := by
    rw [vector2.addAssignAt_eq, Function.update_noteq (Ne.symm h)]
  have hp : vector2.addAssignAt m p q p = (m p).addAssign (m q) := by
    rw [vector2.addAssignAt_eq, Function.update_same]
  refine ⟨?_, hq, ?_⟩
  · rw [vector2.subAssignAt_eq, Function.update_same, hp, hq]
    show ({ x := (m p).x + (m q).x - (m q).x, y := (m p).y + (m q).y - (m q).y } :
      vector2 α) = m p
    rw [add_sub_cancel_right, add_sub_cancel_right]
  · rw [vector2.subAssignAt_eq, Function.update_noteq (Ne.symm h), hq]

/-- Witness of C17, amended: `v = (1, 2)` at place `0` and `w = (3, 4)` at place `1`,
over the rationals. -/
theorem subAssignAt_undoes_addAssignAt_witness :
    (vector2.subAssignAt
          (vector2.addAssignAt (fun i => if i = 0 then (⟨1, 2⟩ : vector2 ℚ) else ⟨3, 4⟩) 0 1)
          0 1 0 =
        (fun i => if i = 0 then (⟨1, 2⟩ : vector2 ℚ) else ⟨3, 4⟩) 0 ∧
      vector2.addAssignAt (fun i => if i = 0 then (⟨1, 2⟩ : vector2 ℚ) else ⟨3, 4⟩) 0 1 1 =
        (fun i => if i = 0 then (⟨1, 2⟩ : vector2 ℚ) else ⟨3, 4⟩) 1 ∧
      vector2.subAssignAt
          (vector2.addAssignAt (fun i => if i = 0 then (⟨1, 2⟩ : vector2 ℚ) else ⟨3, 4⟩) 0 1)
          0 1 1 =
        (fun i => if i = 0 then (⟨1, 2⟩ : vector2 ℚ) else ⟨3, 4⟩) 1) :=
  subAssignAt_undoes_addAssignAt (fun i => if i = 0 then (⟨1, 2⟩ : vector2 ℚ) else ⟨3, 4⟩)
    0 1 (by decide)

/-- C18, as stated: `lengthSquared()` is zero only when `x = 0` and `y = 0`.  It fails
on floats: for `v = (2 ^ -80, 0)` the product `x * x` underflows and
`lengthSquared()` is `0`, while `x` is not. -/
theorem lengthSquared_binary32_underflow :
    binary32.eq (⟨binary32.finite false 8388608 (-103), 0⟩ : vector2 binary32).lengthSquared
        0 = true ∧
      binary32.eq (⟨binary32.finite false 8388608 (-103), 0⟩ : vector2 binary32).x 0 =
        false ∧
      ¬ (binary32.eq
            (⟨binary32.finite false 8388608 (-103), 0⟩ : vector2 binary32).lengthSquared
            0 = true ↔
          binary32.eq (⟨binary32.finite false 8388608 (-103), 0⟩ : vector2 binary32).x 0 =
              true ∧
            binary32.eq (⟨binary32.finite false 8388608 (-103), 0⟩ : vector2 binary32).y 0 =
              true) := by
  decide

/-- C18, amended: in exact arithmetic, `lengthSquared()` is non-negative for every
vector and is zero exactly when `x = 0` and `y = 0`, that is exactly for the state that
`setZero()` produces; with a square root for `sqrt`, the same state is the only one
whose `length()` is zero. -/
theorem lengthSquared_nonneg_and_zero_iff (sqrt : α → α) (u v : vector2 α) :
    0 ≤ v.lengthSquared ∧ (v.lengthSquared = 0 ↔ v.x = 0 ∧ v.y = 0) ∧
      (v.lengthSquared = 0 ↔ v = u.setZero) ∧
      (IsSqrt sqrt → (v.length sqrt = 0 ↔ v = u.setZero)) := by
  have hzero : v = u.setZero ↔ v.x = 0 ∧ v.y = 0 := by
    obtain ⟨vx, vy⟩ := v
    simp [vector2.setZero]
  refine ⟨v.sum_sq_nonneg, v.sum_sq_eq_zero_iff, ?_, fun hs => ?_⟩
  · rw [hzero]
    exact v.sum_sq_eq_zero_iff
  · rw [hzero]
    exact (hs.eq_zero_iff v.sum_sq_nonneg).trans v.sum_sq_eq_zero_iff

/-- Witness of C18 at `v = (3, 4)` over the reals, `setZero()` called on `(1, 2)`. -/
theorem lengthSquared_nonneg_and_zero_iff_witness :
    (0 ≤ (⟨3, 4⟩ : vector2 ℝ).lengthSquared ∧
      ((⟨3, 4⟩ : vector2 ℝ).lengthSquared = 0 ↔
        (⟨3, 4⟩ : vector2 ℝ).x = 0 ∧ (⟨3, 4⟩ : vector2 ℝ).y = 0) ∧
      ((⟨3, 4⟩ : vector2 ℝ).lengthSquared = 0 ↔
        (⟨3, 4⟩ : vector2 ℝ) = (⟨1, 2⟩ : vector2 ℝ).setZero) ∧
      ((⟨3, 4⟩ : vector2 ℝ).length Real.sqrt = 0 ↔
        (⟨3, 4⟩ : vector2 ℝ) = (⟨1, 2⟩ : vector2 ℝ).setZero)) :=
  ⟨(lengthSquared_nonneg_and_zero_iff Real.sqrt ⟨1, 2⟩ ⟨3, 4⟩).1,
    (lengthSquared_nonneg_and_zero_iff Real.sqrt ⟨1, 2⟩ ⟨3, 4⟩).2.1,
    (lengthSquared_nonneg_and_zero_iff Real.sqrt ⟨1, 2⟩ ⟨3, 4⟩).2.2.1,
    (lengthSquared_nonneg_and_zero_iff Real.sqrt ⟨1, 2⟩ ⟨3, 4⟩).2.2.2 isSqrt_real⟩

end claims
